import Mathlib

/-!
Verification development for the ShopBotJog core (`src/shopbotjog/core.py` and the
height-determination fragment of `src/shopbotjog/cli.py`).

A file line is modelled as a `List Char`.  Rational numbers (`ℚ`) stand in for
Python floats wherever the program parses decimal text and compares values for
equality; real numbers (`ℝ`) are used for the distance/time computations, which
involve a square root.  File I/O is modelled by an explicit association list
from path names to file contents, and Python exceptions by `Except String`.
-/

set_option allowUnsafeReducibility true

attribute [semireducible] Rat.add Rat.mul Rat.sub Rat.inv Rat.ofScientific Rat.div

instance {ε α : Type} [DecidableEq ε] [DecidableEq α] : DecidableEq (Except ε α) :=
  fun a b =>
    match a, b with
    | .error e, .error f =>
      if h : e = f then isTrue (by rw [h]) else isFalse (fun hc => h (Except.error.inj hc))
    | .ok x, .ok y =>
      if h : x = y then isTrue (by rw [h]) else isFalse (fun hc => h (Except.ok.inj hc))
    | .error _, .ok _ => isFalse (fun hc => Except.noConfusion hc)
    | .ok _, .error _ => isFalse (fun hc => Except.noConfusion hc)

/-- Whitespace characters recognised by the regex class `\s` and by `str.strip()`
(ASCII range; the inputs of interest are ASCII). -/
def isWsChar (c : Char) : Bool :=
  c = ' ' || c = '\t' || c = '\n' || c = '\r' || c = '\x0b' || c = '\x0c'

/-- Characters admitted by the field character class `[\d.-]` of the command
patterns in `ShopBotJogProcessor.__init__`. -/
def isFieldChar (c : Char) : Bool :=
  c.isDigit || c = '.' || c = '-'

/-- Model of Python `str.strip()`: remove leading and trailing whitespace. -/
def stripChars (cs : List Char) : List Char :=
  ((cs.dropWhile isWsChar).reverse.dropWhile isWsChar).reverse

/-- Model of `m3_pattern.match` on an already stripped line, where
`m3_pattern = ^M3,\s*([\d.-]+),\s*([\d.-]+),\s*([\d.-]+)$`.
Because no field character is a comma or whitespace, the regex engine's greedy
matching is deterministic and equals this direct scan; the result is the triple
of captured field strings. -/
def m3Match (cs : List Char) : Option (List Char × List Char × List Char) :=
  match cs with
  | 'M' :: '3' :: ',' :: rest =>
    let r1 := rest.dropWhile isWsChar
    let f1 := r1.takeWhile isFieldChar
    if f1.isEmpty then none else
    match r1.dropWhile isFieldChar with
    | ',' :: rest2 =>
      let r2 := rest2.dropWhile isWsChar
      let f2 := r2.takeWhile isFieldChar
      if f2.isEmpty then none else
      match r2.dropWhile isFieldChar with
      | ',' :: rest3 =>
        let r3 := rest3.dropWhile isWsChar
        let f3 := r3.takeWhile isFieldChar
        if f3.isEmpty then none else
        if (r3.dropWhile isFieldChar).isEmpty then some (f1, f2, f3) else none
      | _ => none
    | _ => none
  | _ => none

/-- Model of `ms_pattern.match` on a stripped line, where
`ms_pattern = ^MS,\s*([\d.-]+)(?:,\s*([\d.-]+))?` (not anchored at the end);
only the first capture group (the XY rate text) is used by the program. -/
def msMatch (cs : List Char) : Option (List Char) :=
  match cs with
  | 'M' :: 'S' :: ',' :: rest =>
    let f1 := (rest.dropWhile isWsChar).takeWhile isFieldChar
    if f1.isEmpty then none else some f1
  | _ => none

/-- Model of `js_pattern.match` on a stripped line, where
`js_pattern = ^JS,\s*([\d.-]+)(?:,\s*([\d.-]+))?`. -/
def jsMatch (cs : List Char) : Option (List Char) :=
  match cs with
  | 'J' :: 'S' :: ',' :: rest =>
    let f1 := (rest.dropWhile isWsChar).takeWhile isFieldChar
    if f1.isEmpty then none else some f1
  | _ => none

/-- Whether Python `float()` accepts this string, for strings drawn from the
field character class `[\d.-]`: an optional leading minus sign, then digits
with at most one decimal point and at least one digit overall. -/
def isValidFloat (cs : List Char) : Bool :=
  let body := match cs with | '-' :: t => t | _ => cs
  let ip := body.takeWhile Char.isDigit
  match body.dropWhile Char.isDigit with
  | [] => !ip.isEmpty
  | '.' :: frac => frac.all Char.isDigit && (!ip.isEmpty || !frac.isEmpty)
  | _ => false

/-- Numeric value of a digit string. -/
def digitsVal (ds : List Char) : ℕ :=
  ds.foldl (fun a c => 10 * a + (c.toNat - 48)) 0

/-- Exact decimal value of a string accepted by `isValidFloat` (idealising the
rounding of Python's binary floats, which is irrelevant at the precision used
by these files). -/
def floatVal (cs : List Char) : ℚ :=
  let neg := cs.head? = some '-'
  let body := if neg then cs.tail else cs
  let ip := body.takeWhile Char.isDigit
  let frac := match body.dropWhile Char.isDigit with | '.' :: f => f | _ => []
  let mag : ℚ := (digitsVal ip : ℚ) + (digitsVal frac : ℚ) / (10 ^ frac.length)
  if neg then -mag else mag

/-- Occurrence count of a value in a list, as `collections.Counter` records it. -/
def countQ (zs : List ℚ) (z : ℚ) : ℕ :=
  zs.countP (fun x => decide (x = z))

/-- Key list of `Counter(z_values)`: distinct values in first-occurrence order. -/
def counterKeys (zs : List ℚ) : List ℚ :=
  zs.foldl (fun ks z => if z ∈ ks then ks else ks ++ [z]) []

/-- Model of `Counter(z_values).items()`: each distinct value with its count,
in first-occurrence order. -/
def zCounterOf (zs : List ℚ) : List (ℚ × ℕ) :=
  (counterKeys zs).map (fun z => (z, countQ zs z))

/-- The comprehension of `_analyze_positioning_heights` line 137: heights that
are non-negative and occur at least twice. -/
def positive_heights (zs : List ℚ) : List (ℚ × ℕ) :=
  (zCounterOf zs).filter (fun p => decide (0 ≤ p.1 ∧ 2 ≤ p.2))

/-- Strict comparison in the two-key order of line 144: `q` beats `p` when it
has a larger count, or an equal count and a larger height. -/
def betterKey (p q : ℚ × ℕ) : Bool :=
  decide (p.2 < q.2 ∨ (p.2 = q.2 ∧ p.1 < q.1))

/-- First element of `positive_heights` after the descending two-key sort of
line 144, i.e. the pair maximising (count, height) lexicographically.  The
source sorts and takes index 0; since counter keys are distinct the sort's
first element is exactly this fold's maximum. -/
def selectBest : List (ℚ × ℕ) → Option (ℚ × ℕ)
  | [] => none
  | p :: rest => some (rest.foldl (fun b q => if betterKey b q then q else b) p)

/-- Descending sort by height used for `frequent_heights` (line 134) and for
the CLI's error listing (`sorted(available_heights, reverse=True)`). -/
def sortByHeightDesc (l : List (ℚ × ℕ)) : List (ℚ × ℕ) :=
  List.insertionSort (fun p q => q.1 ≤ p.1) l

/-- Sum of a list of rationals (`sum(z_values)`). -/
def listSumQ (zs : List ℚ) : ℚ := zs.foldl (· + ·) 0

/-- `max(z_values)` for a non-empty list (the source only calls it on one). -/
def listMaxQ : List ℚ → ℚ
  | [] => 0
  | z :: zs => zs.foldl max z

/-- `min(z_values)` for a non-empty list. -/
def listMinQ : List ℚ → ℚ
  | [] => 0
  | z :: zs => zs.foldl min z

/-- Result dictionary of `_analyze_positioning_heights`. -/
structure PositioningAnalysis where
  z_counter : List (ℚ × ℕ)
  max_z : ℚ
  min_z : ℚ
  avg_z : ℚ
  positioning_heights : List (ℚ × ℕ)
  feed_height : Option ℚ
  frequent_heights : List (ℚ × ℕ)

/-- Model of `ShopBotJogProcessor._analyze_positioning_heights`. -/
def analyze_positioning_heights (zs : List ℚ) : PositioningAnalysis :=
  { z_counter := zCounterOf zs
    max_z := listMaxQ zs
    min_z := listMinQ zs
    avg_z := listSumQ zs / (zs.length : ℚ)
    positioning_heights :=
      match selectBest (positive_heights zs) with
      | some p => [p]
      | none => []
    feed_height := (selectBest (positive_heights zs)).map (·.1)
    frequent_heights :=
      sortByHeightDesc ((zCounterOf zs).filter (fun p => decide (2 ≤ p.2))) }

/-- The feed height the automatic selection yields for a list of Z values. -/
def feedHeightOf (zs : List ℚ) : Option ℚ :=
  (analyze_positioning_heights zs).feed_height

/-- A raw file line, terminator included if the file had one. -/
abbrev Line := List Char

/-- Accumulator of the per-line scanning loop of `analyze_file` (lines 41-78). -/
structure ScanState where
  z_values : List ℚ
  m3_coordinates : List (ℚ × ℚ × ℚ)
  m3_commands : ℕ
  total_lines : ℕ
  detected_move_speed : Option ℚ
  detected_jog_speed : Option ℚ
deriving Repr, DecidableEq

/-- The scan state before the first line. -/
def initialScanState : ScanState :=
  { z_values := []
    m3_coordinates := []
    m3_commands := 0
    total_lines := 0
    detected_move_speed := none
    detected_jog_speed := none }

/-- Error raised by Python `float()` on a string it rejects. -/
def valueError : String := "ValueError: could not convert string to float"

/-- Error raised by Python on a division whose denominator is zero. -/
def zeroDivisionError : String := "ZeroDivisionError: float division by zero"

/-- One iteration of the scanning loop of `analyze_file`: strip the line, try
the M3, MS and JS patterns in that order, convert the captured fields with
`float()` (which raises on a field the character class admits but `float`
rejects), and update the accumulator.  Declared speeds are converted from
inches/second to inches/minute by multiplying by 60 (lines 69 and 77). -/
def scanLine (st : ScanState) (line : Line) : Except String ScanState :=
  let st := { st with total_lines := st.total_lines + 1 }
  let ls := stripChars line
  match m3Match ls with
  | some (f1, f2, f3) =>
    if isValidFloat f1 && isValidFloat f2 && isValidFloat f3 then
      .ok { st with
            m3_commands := st.m3_commands + 1
            z_values := st.z_values ++ [floatVal f3]
            m3_coordinates := st.m3_coordinates ++ [(floatVal f1, floatVal f2, floatVal f3)] }
    else .error valueError
  | none =>
  match msMatch ls with
  | some f =>
    if isValidFloat f then .ok { st with detected_move_speed := some (floatVal f * 60) }
    else .error valueError
  | none =>
  match jsMatch ls with
  | some f =>
    if isValidFloat f then .ok { st with detected_jog_speed := some (floatVal f * 60) }
    else .error valueError
  | none => .ok st

/-- The scanning loop of `analyze_file` over the whole file. -/
def scanLines (st : ScanState) : List Line → Except String ScanState
  | [] => .ok st
  | l :: rest =>
    match scanLine st l with
    | .error e => .error e
    | .ok st' => scanLines st' rest

/-- Result dictionary of `_calculate_conversion_stats`. -/
structure ConversionStats where
  total_m3_commands : ℕ
  positioning_commands : ℕ
  cutting_commands : ℕ
  conversion_percentage : ℚ
  heights_to_convert : List ℚ
deriving Repr, DecidableEq

/-- Model of `ShopBotJogProcessor._calculate_conversion_stats`. -/
def calculate_conversion_stats (z_values : List ℚ) (positioning_heights : List (ℚ × ℕ)) :
    ConversionStats :=
  if positioning_heights.isEmpty then
    { total_m3_commands := z_values.length
      positioning_commands := 0
      cutting_commands := z_values.length
      conversion_percentage := 0
      heights_to_convert := [] }
  else
    let heights_set := positioning_heights.map (·.1)
    let positioning_commands := z_values.countP (fun z => decide (z ∈ heights_set))
    { total_m3_commands := z_values.length
      positioning_commands := positioning_commands
      cutting_commands := z_values.length - positioning_commands
      conversion_percentage :=
        if z_values.isEmpty then 0
        else ((positioning_commands : ℚ) / (z_values.length : ℚ)) * 100
      heights_to_convert := heights_set }

/-- Result dictionary of `_calculate_time_savings` (only the keys every branch
produces and a claim consults). -/
structure TimeSavings where
  positioning_commands : ℕ
  avg_move_distance : ℝ
  total_move_distance : ℝ
  time_at_cutting_speed : ℝ
  time_at_jog_speed : ℝ
  time_saved_minutes : ℝ
  speed_improvement_factor : ℚ

/-- The coordinates whose Z value lies in the positioning height set, in
original file order (line 229). -/
def positioningCoordinates (m3_coordinates : List (ℚ × ℚ × ℚ))
    (positioning_heights : List (ℚ × ℕ)) : List (ℚ × ℚ × ℚ) :=
  let heights_set := positioning_heights.map (·.1)
  m3_coordinates.filter (fun c => decide (c.2.2 ∈ heights_set))

/-- Planar (X,Y-only) Euclidean distance of line 252, where `** 0.5` on the
non-negative sum of squares is the square root. -/
noncomputable def planarDist (p q : ℚ × ℚ) : ℝ :=
  Real.sqrt ((((q.1 - p.1) ^ 2 + (q.2 - p.2) ^ 2 : ℚ) : ℝ))

/-- The accumulation loop of lines 246-253: sum of planar distances between
consecutive points. -/
noncomputable def totalDist : List (ℚ × ℚ) → ℝ
  | [] => 0
  | [_] => 0
  | p :: q :: rest => planarDist p q + totalDist (q :: rest)

/-- Model of `ShopBotJogProcessor._calculate_time_savings`.  Divisions raise
`ZeroDivisionError` exactly where Python would evaluate them: the
speed-improvement factor `jog/cutting` in the two early-return branches, and
`total/cutting` then `total/jog` in the full branch. -/
noncomputable def calculate_time_savings (m3_coordinates : List (ℚ × ℚ × ℚ))
    (positioning_heights : List (ℚ × ℕ)) (cutting_speed jog_speed : ℚ) :
    Except String TimeSavings :=
  if positioning_heights.isEmpty || m3_coordinates.isEmpty then
    if cutting_speed = 0 then .error zeroDivisionError
    else .ok
      { positioning_commands := 0, avg_move_distance := 0, total_move_distance := 0
        time_at_cutting_speed := 0, time_at_jog_speed := 0, time_saved_minutes := 0
        speed_improvement_factor := jog_speed / cutting_speed }
  else
    let pcs := positioningCoordinates m3_coordinates positioning_heights
    if pcs.length ≤ 1 then
      if cutting_speed = 0 then .error zeroDivisionError
      else .ok
        { positioning_commands := pcs.length, avg_move_distance := 0, total_move_distance := 0
          time_at_cutting_speed := 0, time_at_jog_speed := 0, time_saved_minutes := 0
          speed_improvement_factor := jog_speed / cutting_speed }
    else
      let total := totalDist (pcs.map (fun c => (c.1, c.2.1)))
      let num_moves := pcs.length - 1
      let avg := if 0 < num_moves then total / (num_moves : ℝ) else 0
      if cutting_speed = 0 then .error zeroDivisionError
      else if jog_speed = 0 then .error zeroDivisionError
      else .ok
        { positioning_commands := pcs.length
          avg_move_distance := avg
          total_move_distance := total
          time_at_cutting_speed := total / (cutting_speed : ℝ)
          time_at_jog_speed := total / (jog_speed : ℝ)
          time_saved_minutes := total / (cutting_speed : ℝ) - total / (jog_speed : ℝ)
          speed_improvement_factor := jog_speed / cutting_speed }

/-- Hard-coded fallback cutting feedrate in inches/minute (line 23). -/
def defaultCuttingSpeedIpm : ℚ := 60

/-- Hard-coded fallback jog speed in inches/minute (line 24). -/
def defaultJogSpeedIpm : ℚ := 300

/-- The analysis dictionary `analyze_file` returns on success (duplicated
legacy keys such as `suggested_retract_height` and `retract_candidates` are
not repeated; `clearance_height` is always absent in the source dictionary). -/
structure Analysis where
  total_lines : ℕ
  m3_commands : ℕ
  z_values : List ℚ
  z_counter : List (ℚ × ℕ)
  max_z : ℚ
  min_z : ℚ
  positioning_heights : List (ℚ × ℕ)
  feed_height : Option ℚ
  detected_move_speed : Option ℚ
  detected_jog_speed : Option ℚ
  actual_cutting_speed : ℚ
  actual_jog_speed : ℚ
  conversion_stats : ConversionStats
  time_savings : TimeSavings

/-- Model of `ShopBotJogProcessor.analyze_file` given the raw lines of the
file; `cfgCut`/`cfgJog` are the processor's configured fallback rates
(`cutting_speed_ipm`/`jog_speed_ipm`).  Existence and extension checks live in
the file-system layer (`process_file`). -/
noncomputable def analyze_file (lines : List Line) (cfgCut cfgJog : ℚ) :
    Except String Analysis :=
  match scanLines initialScanState lines with
  | .error e => .error e
  | .ok st =>
    if st.z_values.isEmpty then .error "No M3 commands found in file"
    else
      let actualCut :=
        match st.detected_move_speed with | some v => v | none => cfgCut
      let actualJog :=
        match st.detected_jog_speed with | some v => v | none => cfgJog
      let pa := analyze_positioning_heights st.z_values
      match calculate_time_savings st.m3_coordinates pa.positioning_heights actualCut actualJog with
      | .error e => .error e
      | .ok ts => .ok
        { total_lines := st.total_lines
          m3_commands := st.m3_commands
          z_values := st.z_values
          z_counter := pa.z_counter
          max_z := pa.max_z
          min_z := pa.min_z
          positioning_heights := pa.positioning_heights
          feed_height := pa.feed_height
          detected_move_speed := st.detected_move_speed
          detected_jog_speed := st.detected_jog_speed
          actual_cutting_speed := actualCut
          actual_jog_speed := actualJog
          conversion_stats := calculate_conversion_stats st.z_values pa.positioning_heights
          time_savings := ts }

/-- Model of Python `str.replace(old, new, 1)`: replace the first occurrence
of `old` (left unchanged when `old` does not occur). -/
def replaceFirst (old new : List Char) : List Char → List Char
  | [] => []
  | c :: rest =>
    if old.isPrefixOf (c :: rest) then new ++ (c :: rest).drop old.length
    else c :: replaceFirst old new rest

/-- The per-line rewrite step of `process_file` (lines 359-375 and 399-415):
re-match the stripped line against the M3 pattern; if it matches and its Z
value (converted by `float`, which can raise) is one of the positioning
heights, emit the stripped line with the first `M3,` replaced by `J3,` plus a
newline and count a modification; otherwise emit the original line verbatim. -/
def rewriteLine (positioning_heights : List ℚ) (line : Line) :
    Except String (Line × Bool) :=
  let ls := stripChars line
  match m3Match ls with
  | some (_, _, f3) =>
    if isValidFloat f3 then
      if floatVal f3 ∈ positioning_heights then
        .ok (replaceFirst (['M', '3', ',']) (['J', '3', ',']) ls ++ ['\n'], true)
      else .ok (line, false)
    else .error valueError
  | none => .ok (line, false)

/-- The rewrite loop over all lines.  Returns the emitted lines, the number of
modifications, and — when a `float()` conversion raised — the error, together
with the lines already produced before the raise (the streaming output path
has written those to disk by then). -/
def rewriteLines (positioning_heights : List ℚ) :
    List Line → List Line × ℕ × Option String
  | [] => ([], 0, none)
  | l :: rest =>
    match rewriteLine positioning_heights l with
    | .error e => ([], 0, some e)
    | .ok (out, b) =>
      let (outs, n, err) := rewriteLines positioning_heights rest
      (out :: outs, (if b then 1 else 0) + n, err)

/-- The header comment block of `process_file` (lines 348-357 and 388-397);
five lines, inserted unconditionally before the content.  The numeric
rendering of heights is abbreviated (no claim consults the header text). -/
def headerLines (inputName : String) (heights : List ℚ) : List Line :=
  [("' File modified by ShopBotJog v0.1.0\n").toList,
   (("' Feed height detected as: ").toList) ++
     (if heights.length = 1 then ("single\n").toList else ("multiple\n").toList),
   ("' M3 commands at feed height converted to J3 for rapid jogging\n").toList,
   (("' Original file: ").toList) ++ inputName.toList ++ [('\n')],
   [('\n')]]

/-- A file system: paths mapped to file contents (a list of raw lines). -/
abbrev FS := List (String × List Line)

/-- Read a file's lines, `none` when the path does not exist. -/
def fsRead (fs : FS) (p : String) : Option (List Line) :=
  (fs.find? (fun e => decide (e.1 = p))).map (·.2)

/-- Write (create or overwrite) a file: the new entry shadows any earlier
entry for the same path in `fsRead`. -/
def fsWrite (fs : FS) (p : String) (c : List Line) : FS :=
  (p, c) :: fs

/-- Backup path of line 327: `<input>.<timestamp>.backup` (the model keeps the
full input path as the name prefix; only its distinctness from the input path
matters). -/
def backupName (inputPath timestamp : String) : String :=
  inputPath ++ ("." ++ timestamp ++ ".backup")

/-- The result dictionary of `process_file` on success. -/
structure ProcessResult where
  output_file : String
  positioning_heights : List ℚ
  retract_height : Option ℚ
  modifications_made : ℕ
  total_m3_commands : ℕ
  conversion_stats : ConversionStats
  time_savings : TimeSavings
  in_place_modification : Bool
  backup_file : Option String

/-- Model of `ShopBotJogProcessor.process_file`.  The pair returned is the
file system after the call and the outcome; error returns leave the file
system exactly as the source leaves the disk at that point.  `timestamp` is
the wall-clock string of line 326 and `backupOk` tells whether
`shutil.copy2` succeeds (its failure leaves the file system unchanged and
aborts before any other write).  The unused `confirm_retract` parameter of
the source is omitted. -/
noncomputable def process_file (fs : FS) (inputPath : String)
    (outputPath : Option String) (positioningHeights : Option (List ℚ))
    (retractHeight : Option ℚ) (timestamp : String) (backupOk : Bool)
    (cfgCut cfgJog : ℚ) : FS × Except String ProcessResult :=
  match fsRead fs inputPath with
  | none => (fs, .error "File not found")
  | some lines =>
    match analyze_file lines cfgCut cfgJog with
    | .error e => (fs, .error e)
    | .ok a =>
      let heights :=
        match positioningHeights with
        | some hs => hs
        | none =>
          match retractHeight with
          | some h => [h]
          | none => a.positioning_heights.map (·.1)
      if heights.isEmpty then (fs, .error "Could not determine positioning heights")
      else
        match outputPath with
        | none =>
          if backupOk then
            let bp := backupName inputPath timestamp
            let fs1 := fsWrite fs bp lines
            match rewriteLines heights lines with
            | (_, _, some e) => (fs1, .error e)
            | (outs, mods, none) =>
              (fsWrite fs1 inputPath (headerLines inputPath heights ++ outs),
               .ok { output_file := inputPath
                     positioning_heights := heights
                     retract_height := heights.head?
                     modifications_made := mods
                     total_m3_commands := a.m3_commands
                     conversion_stats := a.conversion_stats
                     time_savings := a.time_savings
                     in_place_modification := true
                     backup_file := some bp })
          else (fs, .error "Failed to create backup")
        | some op =>
          match rewriteLines heights lines with
          | (partialOuts, _, some e) =>
            (fsWrite fs op (headerLines inputPath heights ++ partialOuts), .error e)
          | (outs, mods, none) =>
            (fsWrite fs op (headerLines inputPath heights ++ outs),
             .ok { output_file := op
                   positioning_heights := heights
                   retract_height := heights.head?
                   modifications_made := mods
                   total_m3_commands := a.m3_commands
                   conversion_stats := a.conversion_stats
                   time_savings := a.time_savings
                   in_place_modification := false
                   backup_file := none })

/-- Error outcomes of the CLI's feed-height determination (`cli.py` main). -/
inductive CliError where
  | invalidManualHeight (available : List (ℚ × ℕ)) : CliError
  | noFeedHeightDetected : CliError
deriving Repr, DecidableEq

/-- The auto-detection branch of `cli.py` lines 285-292: use the analysis'
positioning heights, aborting when none were detected. -/
def cliAutoHeights (autoHeights : List (ℚ × ℕ)) : Except CliError (List ℚ) :=
  if autoHeights.isEmpty then .error .noFeedHeightDetected
  else .ok (autoHeights.map (·.1))

/-- The non-negative counter entries listed in the CLI's invalid-height error,
sorted by height descending (`cli.py` lines 264 and 271-274). -/
def availableHeightsListing (z_counter : List (ℚ × ℕ)) : List (ℚ × ℕ) :=
  sortByHeightDesc (z_counter.filter (fun p => decide (0 ≤ p.1)))

/-- Model of the feed-height determination of `cli.py` main (lines 256-292,
with the `--yes` flag set so the interactive confirmation is skipped): a
supplied height counts as manual only when non-negative (line 258); a manual
height must be a key of the analysis counter, otherwise the run aborts with
the listing of available non-negative heights; a negative supplied height
falls through to auto-detection. -/
def cliDetermineHeights (feedHeight : Option ℚ) (z_counter : List (ℚ × ℕ))
    (autoHeights : List (ℚ × ℕ)) : Except CliError (List ℚ) :=
  match feedHeight with
  | some fh =>
    if 0 ≤ fh then
      if z_counter.any (fun p => decide (p.1 = fh)) then .ok [fh]
      else .error (.invalidManualHeight (availableHeightsListing z_counter))
    else cliAutoHeights autoHeights
  | none => cliAutoHeights autoHeights

/-- The non-strict version of the two-key selection order: `p`'s (count, height)
is lexicographically at most `q`'s. -/
def keyLE (p q : ℚ × ℕ) : Prop :=
  p.2 < q.2 ∨ (p.2 = q.2 ∧ p.1 ≤ q.1)

/-- Whether an `Except` value is a success. -/
def isOkE {ε α : Type} : Except ε α → Bool
  | .ok _ => true
  | .error _ => false

/-- Whether the rewrite loop converts this line for the given height set: its
stripped text matches the M3 pattern with a `float`-valid Z field whose value
lies in the set. -/
def convertiblePred (positioning_heights : List ℚ) (l : Line) : Bool :=
  match m3Match (stripChars l) with
  | some (_, _, f3) => isValidFloat f3 && decide (floatVal f3 ∈ positioning_heights)
  | none => false

/-- Number of input lines the rewrite loop converts for a given height set. -/
def countConvertibleLines (positioning_heights : List ℚ) (lines : List Line) : ℕ :=
  lines.countP (convertiblePred positioning_heights)

/-- Sum of planar distances over consecutive pairs, written independently of
the accumulation loop (for stating what `totalDist` computes). -/
noncomputable def pairwiseDistSum (P : List (ℚ × ℚ)) : ℝ :=
  ((P.zip P.tail).map (fun pq => planarDist pq.1 pq.2)).sum

/-- The cutting-speed rates declared by MS lines, in file order, converted to
inches/minute. -/
def declaredMoveSpeeds (lines : List Line) : List ℚ :=
  lines.filterMap (fun l => (msMatch (stripChars l)).map (fun f => floatVal f * 60))

/-- The jog-speed rates declared by JS lines, in file order, converted to
inches/minute. -/
def declaredJogSpeeds (lines : List Line) : List ℚ :=
  lines.filterMap (fun l => (jsMatch (stripChars l)).map (fun f => floatVal f * 60))

/-- An M3 line at the negative height -0.1. -/
def negLine : Line := ("M3,1.0,2.0,-0.1\n").toList

/-- A one-file file system whose only file consists of two M3 commands at the
negative height -0.1. -/
def negFS : FS := [(("neg.sbp"), [negLine, negLine])]

/-- A file with two M3 commands at height 1.0 (used to exercise successful
runs of the pipeline). -/
def posLines : List Line :=
  [("M3,0.0,0.0,1.0\n").toList, ("M3,3.0,4.0,1.0\n").toList]

/-- A one-file file system holding `posLines`. -/
def posFS : FS := [(("pos.sbp"), posLines)]

/-- A file declaring both speeds (`MS, 1.5` and `JS, 2.5`) ahead of two M3
commands at height 1.0. -/
def declLines : List Line :=
  [("MS, 1.5\n").toList, ("JS, 2.5\n").toList,
   ("M3,0.0,0.0,1.0\n").toList, ("M3,3.0,4.0,1.0\n").toList]

/-- A file with two cutting-speed declarations (`MS, 1.0` then `MS, 2.0`), a
jog declaration, and two M3 commands at height 1.0. -/
def twoDeclLines : List Line :=
  [("MS, 1.0\n").toList, ("MS, 2.0\n").toList, ("JS, 2.5\n").toList,
   ("M3,0.0,0.0,1.0\n").toList, ("M3,3.0,4.0,1.0\n").toList]

/-- A file whose auto-detected feed height is 1.0 (two occurrences) while the
height 2.0 occurs once. -/
def mixedLines : List Line :=
  [("M3,0.0,0.0,1.0\n").toList, ("M3,1.0,1.0,1.0\n").toList,
   ("M3,2.0,2.0,2.0\n").toList]

/-- A one-file file system holding `mixedLines`. -/
def mixedFS : FS := [(("mixed.sbp"), mixedLines)]

instance : IsTotal (ℚ × ℕ) (fun p q => q.1 ≤ p.1) :=
  ⟨fun a b => le_total b.1 a.1⟩

instance : IsTrans (ℚ × ℕ) (fun p q => q.1 ≤ p.1) :=
  ⟨fun _ _ _ hab hbc => le_trans hbc hab⟩

theorem mem_counterFold (zs : List ℚ) : ∀ (ks : List ℚ) (x : ℚ),
    x ∈ zs.foldl (fun ks z => if z ∈ ks then ks else ks ++ [z]) ks ↔ x ∈ ks ∨ x ∈ zs := by
  induction zs with
  | nil => intro ks x; simp
  | cons z zs ih =>
    intro ks x
    rw [List.foldl_cons, ih]
    by_cases hz : z ∈ ks
    · rw [if_pos hz]
      simp only [List.mem_cons]
      constructor
      · rintro (h | h)
        · exact Or.inl h
        · exact Or.inr (Or.inr h)
      · rintro (h | h | h)
        · exact Or.inl h
        · rw [h]; exact Or.inl hz
        · exact Or.inr h
    · rw [if_neg hz]
      simp only [List.mem_append, List.mem_singleton, List.mem_cons]
      tauto

theorem mem_counterKeys (zs : List ℚ) (x : ℚ) : x ∈ counterKeys zs ↔ x ∈ zs := by
  unfold counterKeys
  rw [mem_counterFold]
  simp

theorem mem_zCounterOf (zs : List ℚ) (p : ℚ × ℕ) :
    p ∈ zCounterOf zs ↔ p.1 ∈ zs ∧ p.2 = countQ zs p.1 := by
  unfold zCounterOf
  rw [List.mem_map]
  constructor
  · rintro ⟨z, hz, rfl⟩
    exact ⟨(mem_counterKeys zs z).1 hz, rfl⟩
  · rintro ⟨h1, h2⟩
    refine ⟨p.1, (mem_counterKeys zs p.1).2 h1, ?_⟩
    cases p
    simp_all

theorem mem_positive_heights (zs : List ℚ) (p : ℚ × ℕ) :
    p ∈ positive_heights zs ↔ p.1 ∈ zs ∧ p.2 = countQ zs p.1 ∧ 0 ≤ p.1 ∧ 2 ≤ p.2 := by
  unfold positive_heights
  rw [List.mem_filter, mem_zCounterOf, decide_eq_true_eq]
  tauto

theorem keyLE_refl (p : ℚ × ℕ) : keyLE p p := Or.inr ⟨rfl, le_refl _⟩

theorem keyLE_trans {p q r : ℚ × ℕ} (h1 : keyLE p q) (h2 : keyLE q r) : keyLE p r := by
  rcases h1 with h1 | ⟨h1a, h1b⟩ <;> rcases h2 with h2 | ⟨h2a, h2b⟩
  · exact Or.inl (lt_trans h1 h2)
  · exact Or.inl (by rw [← h2a]; exact h1)
  · exact Or.inl (by rw [h1a]; exact h2)
  · exact Or.inr ⟨h1a.trans h2a, le_trans h1b h2b⟩

theorem keyLE_of_betterKey {p q : ℚ × ℕ} (h : betterKey p q = true) : keyLE p q := by
  unfold betterKey at h
  rw [decide_eq_true_eq] at h
  rcases h with h | ⟨h1, h2⟩
  · exact Or.inl h
  · exact Or.inr ⟨h1, le_of_lt h2⟩

theorem keyLE_of_not_betterKey {p q : ℚ × ℕ} (h : ¬ betterKey p q = true) : keyLE q p := by
  unfold betterKey at h
  rw [decide_eq_true_eq] at h
  push_neg at h
  obtain ⟨h1, h2⟩ := h
  rcases lt_or_eq_of_le h1 with hlt | heq
  · exact Or.inl hlt
  · exact Or.inr ⟨heq, h2 heq.symm⟩

theorem foldlBest_mem : ∀ (rest : List (ℚ × ℕ)) (p : ℚ × ℕ),
    rest.foldl (fun b q => if betterKey b q then q else b) p = p ∨
    rest.foldl (fun b q => if betterKey b q then q else b) p ∈ rest := by
  intro rest
  induction rest with
  | nil => intro p; exact Or.inl rfl
  | cons q rest ih =>
    intro p
    rw [List.foldl_cons]
    rcases ih (if betterKey p q then q else p) with h | h
    · rw [h]
      split
      · exact Or.inr (List.mem_cons_self _ _)
      · exact Or.inl rfl
    · exact Or.inr (List.mem_cons_of_mem _ h)

theorem foldlBest_ub : ∀ (rest : List (ℚ × ℕ)) (p x : ℚ × ℕ),
    (x = p ∨ x ∈ rest) →
    keyLE x (rest.foldl (fun b q => if betterKey b q then q else b) p) := by
  intro rest
  induction rest with
  | nil =>
    rintro p x (rfl | h)
    · exact keyLE_refl x
    · cases h
  | cons q rest ih =>
    intro p x hx
    rw [List.foldl_cons]
    have hstep1 : keyLE p (if betterKey p q then q else p) := by
      split
      · exact keyLE_of_betterKey (by assumption)
      · exact keyLE_refl p
    have hstep2 : keyLE q (if betterKey p q then q else p) := by
      split
      · exact keyLE_refl q
      · next hb => exact keyLE_of_not_betterKey hb
    rcases hx with rfl | hx
    · exact keyLE_trans hstep1 (ih _ _ (Or.inl rfl))
    · rcases List.mem_cons.mp hx with rfl | hx
      · exact keyLE_trans hstep2 (ih _ _ (Or.inl rfl))
      · exact ih _ _ (Or.inr hx)

theorem selectBest_mem {l : List (ℚ × ℕ)} {b : ℚ × ℕ} (h : selectBest l = some b) :
    b ∈ l := by
  cases l with
  | nil => simp [selectBest] at h
  | cons p rest =>
    unfold selectBest at h
    injection h with h
    rcases foldlBest_mem rest p with hm | hm
    · rw [← h, hm]
      exact List.mem_cons_self _ _
    · rw [← h]
      exact List.mem_cons_of_mem _ hm

theorem selectBest_ub {l : List (ℚ × ℕ)} {b x : ℚ × ℕ} (h : selectBest l = some b)
    (hx : x ∈ l) : keyLE x b := by
  cases l with
  | nil => cases hx
  | cons p rest =>
    unfold selectBest at h
    injection h with h
    subst h
    rcases List.mem_cons.mp hx with rfl | hx
    · exact foldlBest_ub rest x x (Or.inl rfl)
    · exact foldlBest_ub rest p x (Or.inr hx)

theorem selectBest_eq_none {l : List (ℚ × ℕ)} : selectBest l = none ↔ l = [] := by
  cases l <;> simp [selectBest]

theorem feedHeightOf_eq (zs : List ℚ) :
    feedHeightOf zs = (selectBest (positive_heights zs)).map (·.1) := rfl

/-- C2: for every file with at least one non-negative Z height occurring at
least twice, automatic selection returns the candidate height (z ≥ 0,
count ≥ 2) with the highest occurrence count, breaking ties by the larger
height; with no candidate it yields no feed height.  The two closing
conjuncts check the spec's tie-break scenario {2.0: 3, 1.0: 3} ↦ 2.0 and a
no-candidate file. -/
theorem C2_selection (zs : List ℚ) :
    (∀ h, feedHeightOf zs = some h →
      (h ∈ zs ∧ 0 ≤ h ∧ 2 ≤ countQ zs h) ∧
      ∀ z ∈ zs, 0 ≤ z → 2 ≤ countQ zs z →
        countQ zs z < countQ zs h ∨ (countQ zs z = countQ zs h ∧ z ≤ h))
    ∧ (feedHeightOf zs = none → ∀ z ∈ zs, 0 ≤ z → countQ zs z < 2)
    ∧ feedHeightOf [2, 2, 2, 1, 1, 1] = some 2
    ∧ feedHeightOf [(-1 : ℚ), (-1), (-1), 3] = none := by
  refine ⟨?_, ?_, by decide, by decide⟩
  · intro h hfeed
    rw [feedHeightOf_eq] at hfeed
    rcases Option.map_eq_some'.mp hfeed with ⟨b, hb, hb1⟩
    have hmem := (mem_positive_heights zs b).1 (selectBest_mem hb)
    obtain ⟨hbz, hbc, hb0, hb2⟩ := hmem
    subst hb1
    refine ⟨⟨hbz, hb0, by rw [← hbc]; exact hb2⟩, ?_⟩
    intro z hz h0 h2
    have hzmem : (z, countQ zs z) ∈ positive_heights zs :=
      (mem_positive_heights zs (z, countQ zs z)).2 ⟨hz, rfl, h0, h2⟩
    have hle := selectBest_ub hb hzmem
    rcases hle with hle | ⟨hle, hle2⟩
    · left
      rw [← hbc]
      exact hle
    · right
      exact ⟨by rw [← hbc]; exact hle, hle2⟩
  · intro hnone z hz h0
    rw [feedHeightOf_eq] at hnone
    have hsel : selectBest (positive_heights zs) = none := by
      cases hs : selectBest (positive_heights zs)
      · rfl
      · rw [hs] at hnone
        simp at hnone
    have hemp : positive_heights zs = [] := selectBest_eq_none.mp hsel
    by_contra hcnt
    push_neg at hcnt
    have : (z, countQ zs z) ∈ positive_heights zs :=
      (mem_positive_heights zs (z, countQ zs z)).2 ⟨hz, rfl, h0, hcnt⟩
    rw [hemp] at this
    cases this

/-- Witness for C2: the tie-break file {2.0: 3, 1.0: 3} selects 2.0, and the
selection bound instantiated at the competing height 1.0. -/
theorem C2_selection_witness :
    feedHeightOf [2, 2, 2, 1, 1, 1] = some 2
    ∧ (countQ [2, 2, 2, 1, 1, 1] 1 < countQ [2, 2, 2, 1, 1, 1] 2
       ∨ (countQ [2, 2, 2, 1, 1, 1] 1 = countQ [2, 2, 2, 1, 1, 1] 2 ∧ (1 : ℚ) ≤ 2)) :=
  ⟨by decide,
   ((C2_selection [2, 2, 2, 1, 1, 1]).1 2 (by decide)).2 1 (by decide) (by decide) (by decide)⟩

/-- C5 (code bug): the parser is not total.  The line `M3, 1, 2, 1.2.3` is
accepted by the M3 regex (the field class `[\d.-]+` admits `1.2.3`), but
`float` rejects the Z field, so the scanning loop of `analyze_file` and the
rewrite loop of `process_file` both raise a `ValueError` instead of passing
the line through. -/
theorem C5_invalid_numeral_raises :
    m3Match (stripChars (("M3, 1, 2, 1.2.3\n").toList)) =
        some ((("1").toList), (("2").toList), (("1.2.3").toList))
    ∧ isValidFloat (("1.2.3").toList) = false
    ∧ scanLines initialScanState [(("M3, 1, 2, 1.2.3\n").toList)] = .error valueError
    ∧ rewriteLines [(1 : ℚ)] [(("M3, 1, 2, 1.2.3\n").toList)] = ([], 0, some valueError) := by
  refine ⟨by decide, by decide, by decide, by decide⟩

/-- C1 (counterexample): `process_file` applies caller-supplied positioning
heights without any negative-Z check: on a file of two M3 commands at the
strictly negative height -0.1, supplying the height -1/10 reclassifies both
commands to J3. -/
theorem C1_counterexample :
    ((process_file negFS ("neg.sbp") (some ("out.sbp")) (some [-(1 : ℚ)/10]) none
        ("20250101_120000") true 60 300).2).map (fun r => r.modifications_made) = .ok 2
    ∧ (fsRead (process_file negFS ("neg.sbp") (some ("out.sbp")) (some [-(1 : ℚ)/10]) none
        ("20250101_120000") true 60 300).1 ("out.sbp")).map (fun ls => ls.drop 5)
      = some [("J3,1.0,2.0,-0.1\n").toList, ("J3,1.0,2.0,-0.1\n").toList]
    ∧ (-(1 : ℚ)/10) < 0 := by
  refine ⟨by decide, by decide, by norm_num⟩

/-- C4 (counterexample): a rewritten line does not preserve all whitespace:
the line `  M3, 0.5, 0.5, 2.0` (leading spaces) at selected height 2.0 is
emitted as `J3, 0.5, 0.5, 2.0` — the replacement acts on the stripped line,
so the leading whitespace is dropped rather than preserved. -/
theorem C4_counterexample :
    rewriteLine [(2 : ℚ)] (("  M3, 0.5, 0.5, 2.0\n").toList)
      = .ok ((("J3, 0.5, 0.5, 2.0\n").toList), true)
    ∧ (("J3, 0.5, 0.5, 2.0\n").toList) ≠ (("  J3, 0.5, 0.5, 2.0\n").toList) := by
  refine ⟨by decide, by decide⟩

/-- C6 (counterexample): a non-positive speed rate does not make the
operation fail: with the negative cutting rate -60 the time-savings
computation succeeds (factor 300 / -60 = -5), and a whole-file analysis with
that fallback rate succeeds as well, with -60 used as the effective rate. -/
theorem C6_counterexample :
    (calculate_time_savings [] [] (-60) 300).map (fun t => t.speed_improvement_factor)
      = .ok (-5)
    ∧ (analyze_file posLines (-60) 300).map (fun a => a.actual_cutting_speed) = .ok (-60) := by
  refine ⟨by decide, by decide⟩

/-- C9 (counterexample): a manually supplied *negative* feed height is not
validated against the recorded heights at all: supplying -1 on a file whose
only counter keys are {0.5906: 2} does not fail — the CLI silently treats the
request as non-manual and proceeds with the auto-detected height. -/
theorem C9_counterexample :
    cliDetermineHeights (some (-1)) [((5906 : ℚ)/10000, 2)] [((5906 : ℚ)/10000, 2)]
      = .ok [5906/10000]
    ∧ ¬ ((-1 : ℚ) = 5906/10000) := by
  refine ⟨by decide, by norm_num⟩

theorem m3Match_take3 {cs : List Char} {fs : List Char × List Char × List Char}
    (h : m3Match cs = some fs) : cs.take 3 = ['M', '3', ','] := by
  unfold m3Match at h
  split at h
  · rfl
  · exact absurd h (by simp)

theorem isPrefixOf_M3 (t : List Char) :
    List.isPrefixOf (['M', '3', ',']) ('M' :: '3' :: ',' :: t) = true := by
  simp [List.isPrefixOf]

theorem replaceFirst_M3 (t : List Char) :
    replaceFirst (['M', '3', ',']) (['J', '3', ',']) ('M' :: '3' :: ',' :: t)
      = 'J' :: '3' :: ',' :: t := by
  simp only [replaceFirst, isPrefixOf_M3, if_true]
  rfl

/-- C4 (amended): during the rewrite, a line whose stripped text parses as an
M3 command with a valid Z value in the selected set is emitted as the
*stripped* line with the leading `M3,` replaced by `J3,` and a fresh `\n`
terminator (so all numeric fields and internal whitespace survive, but
leading/trailing whitespace and the original terminator are normalised);
every other line, including lines that do not parse, is emitted unchanged,
verbatim. -/
theorem C4_rewrite_rule (hs : List ℚ) (line out : Line) (b : Bool)
    (h : rewriteLine hs line = .ok (out, b)) :
    (b = false → out = line)
    ∧ (b = true →
        (stripChars line).take 3 = ['M', '3', ','] ∧
        out = 'J' :: '3' :: ',' :: ((stripChars line).drop 3) ++ [('\n')])
    ∧ (∀ f1 f2 f3, m3Match (stripChars line) = some (f1, f2, f3) →
        isValidFloat f3 = true → (b = true ↔ floatVal f3 ∈ hs)) := by
  unfold rewriteLine at h
  dsimp only at h
  cases hm : m3Match (stripChars line) with
  | none =>
    rw [hm] at h
    simp only [Except.ok.injEq, Prod.mk.injEq] at h
    obtain ⟨hout, hb⟩ := h
    subst hout
    subst hb
    refine ⟨fun _ => rfl, by simp, ?_⟩
    intro f1 f2 f3 hm2
    cases hm2
  | some fs =>
    obtain ⟨f1, f2, f3⟩ := fs
    rw [hm] at h
    dsimp only at h
    cases hv : isValidFloat f3 with
    | false =>
      rw [hv] at h
      simp at h
    | true =>
      rw [if_pos hv] at h
      by_cases hmem : floatVal f3 ∈ hs
      · rw [if_pos hmem] at h
        simp only [Except.ok.injEq, Prod.mk.injEq] at h
        obtain ⟨hout, hb⟩ := h
        subst hout
        subst hb
        have htake := m3Match_take3 hm
        have hshape : stripChars line = 'M' :: '3' :: ',' :: (stripChars line).drop 3 := by
          conv_lhs => rw [← List.take_append_drop 3 (stripChars line)]
          rw [htake]
          rfl
        refine ⟨by simp, ?_, ?_⟩
        · intro _
          refine ⟨htake, ?_⟩
          conv_lhs => rw [hshape, replaceFirst_M3]
        · intro g1 g2 g3 hm2 _
          injection hm2 with hm2
          have hg : f3 = g3 := by
            have := congrArg (fun t => t.2.2) hm2
            simpa using this
          exact ⟨fun _ => hg ▸ hmem, fun _ => rfl⟩
      · rw [if_neg hmem] at h
        simp only [Except.ok.injEq, Prod.mk.injEq] at h
        obtain ⟨hout, hb⟩ := h
        subst hout
        subst hb
        refine ⟨fun _ => rfl, by simp, ?_⟩
        intro g1 g2 g3 hm2 _
        injection hm2 with hm2
        have hg : f3 = g3 := by
          have := congrArg (fun t => t.2.2) hm2
          simpa using this
        constructor
        · intro hfalse
          cases hfalse
        · intro hgmem
          exact absurd (hg ▸ hgmem) hmem

/-- Witness for C4: the spec's own scenario line `M3, 1.0, 2.0, 0.59` at
selected height 0.59 is rewritten to `J3, 1.0, 2.0, 0.59`, the stripped line
with the opcode token replaced and the numeric text intact. -/
theorem C4_rewrite_rule_witness :
    rewriteLine [(59 : ℚ)/100] (("M3, 1.0, 2.0, 0.59\n").toList)
      = .ok ((("J3, 1.0, 2.0, 0.59\n").toList), true)
    ∧ (("J3, 1.0, 2.0, 0.59\n").toList)
      = 'J' :: '3' :: ',' ::
          ((stripChars (("M3, 1.0, 2.0, 0.59\n").toList)).drop 3) ++ [('\n')] :=
  ⟨by decide,
   ((C4_rewrite_rule ([(59 : ℚ)/100]) (("M3, 1.0, 2.0, 0.59\n").toList)
      (("J3, 1.0, 2.0, 0.59\n").toList) true (by decide)).2.1 rfl).2⟩

/-- C9 (amended): for every manually supplied *non-negative* feed height, the
request succeeds exactly when the value equals one of the recorded counter
keys; otherwise it fails with the invalid-height condition listing all
non-negative heights with their counts, sorted by value descending.  A
*negative* supplied height is not treated as manual at all: it falls through
to auto-detection, so the run can succeed although the value is not a key. -/
theorem C9_manual_height (fh : ℚ) (zc autoH : List (ℚ × ℕ)) (hfh : 0 ≤ fh) :
    (zc.any (fun p => decide (p.1 = fh)) = true →
      cliDetermineHeights (some fh) zc autoH = .ok [fh])
    ∧ (zc.any (fun p => decide (p.1 = fh)) = false →
        cliDetermineHeights (some fh) zc autoH
          = .error (.invalidManualHeight (availableHeightsListing zc))
        ∧ List.Sorted (fun p q : ℚ × ℕ => q.1 ≤ p.1) (availableHeightsListing zc)
        ∧ ∀ p, p ∈ availableHeightsListing zc ↔ p ∈ zc ∧ 0 ≤ p.1)
    ∧ (∀ g : ℚ, g < 0 →
        cliDetermineHeights (some g) zc autoH = cliAutoHeights autoH) := by
  refine ⟨?_, ?_, ?_⟩
  · intro hany
    simp [cliDetermineHeights, hfh, hany]
  · intro hany
    refine ⟨by simp [cliDetermineHeights, hfh, hany], ?_, ?_⟩
    · unfold availableHeightsListing sortByHeightDesc
      exact List.sorted_insertionSort _ _
    · intro p
      unfold availableHeightsListing sortByHeightDesc
      rw [List.mem_insertionSort, List.mem_filter, decide_eq_true_eq]
  · intro g hg
    simp [cliDetermineHeights, not_le.mpr hg]

/-- Witness for C9: the spec scenario — requesting 99.9999 on a file whose
only heights are {0.5906: 2} fails and reports 0.5906 (2 occurrences) as the
sole alternative. -/
theorem C9_manual_height_witness :
    (0 : ℚ) ≤ 999999/10000
    ∧ cliDetermineHeights (some (999999/10000)) [((5906 : ℚ)/10000, 2)] []
        = .error (.invalidManualHeight [((5906 : ℚ)/10000, 2)]) :=
  ⟨by norm_num,
   by
     have h := ((C9_manual_height (999999/10000) [((5906 : ℚ)/10000, 2)] []
       (by norm_num)).2.1 (by decide)).1
     rw [show availableHeightsListing [((5906 : ℚ)/10000, 2)] = [((5906 : ℚ)/10000, 2)]
       from by decide] at h
     exact h⟩

/-- C6 (amended): no explicit rate guard exists.  A zero cutting rate always
makes the time-savings computation raise ZeroDivisionError (at the
speed-factor or distance/time division, after the file has already been
read); the speed-improvement factor jog/cutting is computed even when no
positioning commands exist; and a zero jog rate raises only when at least
two positioning commands exist.  (Negative rates are accepted silently — see
the counterexample.) -/
theorem C6_rate_handling (coords : List (ℚ × ℚ × ℚ)) (ph : List (ℚ × ℕ))
    (cut jog : ℚ) (hc : cut ≠ 0) :
    calculate_time_savings coords ph 0 jog = .error zeroDivisionError
    ∧ (calculate_time_savings coords [] cut jog).map (fun t => t.speed_improvement_factor)
        = .ok (jog / cut)
    ∧ (jog = 0 → 2 ≤ (positioningCoordinates coords ph).length →
        calculate_time_savings coords ph cut jog = .error zeroDivisionError) := by
  refine ⟨?_, ?_, ?_⟩
  · unfold calculate_time_savings
    by_cases h1 : (ph.isEmpty || coords.isEmpty) = true
    · rw [if_pos h1, if_pos rfl]
    · rw [if_neg h1]
      dsimp only
      by_cases h2 : (positioningCoordinates coords ph).length ≤ 1
      · rw [if_pos h2, if_pos rfl]
      · rw [if_neg h2, if_pos rfl]
  · unfold calculate_time_savings
    rw [if_pos (by simp), if_neg hc]
    rfl
  · intro hj h2
    have hne : ¬ ((ph.isEmpty || coords.isEmpty) = true) := by
      intro hor
      rcases Bool.or_eq_true _ _ |>.mp hor with he | he
      · have : ph = [] := List.isEmpty_iff.mp he
        rw [this] at h2
        simp [positioningCoordinates] at h2
      · have : coords = [] := List.isEmpty_iff.mp he
        rw [this] at h2
        simp [positioningCoordinates] at h2
    unfold calculate_time_savings
    rw [if_neg hne]
    dsimp only
    rw [if_neg (by omega), if_neg hc, if_pos hj]

/-- Witness for C6: with the concrete rates cutting 60 and jog 300, a zero
cutting rate raises while the factor 300/60 = 5 is produced with no
positioning commands at all. -/
theorem C6_rate_handling_witness :
    (60 : ℚ) ≠ 0
    ∧ calculate_time_savings [] [] 0 300 = .error zeroDivisionError
    ∧ (calculate_time_savings [] [] 60 300).map (fun t => t.speed_improvement_factor)
        = .ok 5 :=
  ⟨by norm_num, (C6_rate_handling [] [] 60 300 (by norm_num)).1,
   by
     have h := (C6_rate_handling [] [] 60 300 (by norm_num)).2.1
     rw [show (300 : ℚ)/60 = 5 from by norm_num] at h
     exact h⟩

theorem fsRead_fsWrite_self (fs : FS) (p : String) (c : List Line) :
    fsRead (fsWrite fs p c) p = some c := by
  unfold fsRead fsWrite
  rw [List.find?_cons_of_pos _ (by simp)]
  rfl

theorem fsRead_fsWrite_ne (fs : FS) (p q : String) (c : List Line) (h : q ≠ p) :
    fsRead (fsWrite fs p c) q = fsRead fs q := by
  unfold fsRead fsWrite
  rw [List.find?_cons_of_neg _ (by simp; exact fun hc => h hc.symm)]

theorem backupName_ne (inp ts : String) : backupName inp ts ≠ inp := by
  unfold backupName
  intro h
  have hlen := congrArg String.length h
  rw [String.length_append] at hlen
  have hpos : 0 < ("." ++ ts ++ ".backup").length := by
    rw [String.length_append, String.length_append]
    have h1 : (".").length = 1 := by decide
    omega
  omega

/-- C3: for every in-place rewrite (no explicit output path), when backup
creation fails `process_file` returns an error and the file system — in
particular the input file — is exactly its pre-call state, with no output
written; when the run succeeds, the backup file named
`<input>.<timestamp>.backup` holds exactly the pre-rewrite input bytes (the
copy is taken before the input is overwritten). -/
theorem C3_backup_safety (fs : FS) (inp ts : String) (hs : Option (List ℚ))
    (rh : Option ℚ) (cut jog : ℚ) :
    ((process_file fs inp none hs rh ts false cut jog).1 = fs
      ∧ isOkE (process_file fs inp none hs rh ts false cut jog).2 = false)
    ∧ (isOkE (process_file fs inp none hs rh ts true cut jog).2 = true →
        fsRead (process_file fs inp none hs rh ts true cut jog).1 (backupName inp ts)
            = fsRead fs inp
        ∧ (process_file fs inp none hs rh ts true cut jog).2.map (fun r => r.backup_file)
            = .ok (some (backupName inp ts))) := by
  constructor
  · unfold process_file
    cases hread : fsRead fs inp with
    | none => exact ⟨rfl, rfl⟩
    | some lines =>
      dsimp only
      cases han : analyze_file lines cut jog with
      | error e => exact ⟨rfl, rfl⟩
      | ok a =>
        dsimp only
        split
        · exact ⟨rfl, rfl⟩
        · exact ⟨rfl, rfl⟩
  · unfold process_file
    cases hread : fsRead fs inp with
    | none => intro h; exact Bool.noConfusion h
    | some lines =>
      dsimp only
      cases han : analyze_file lines cut jog with
      | error e => intro h; exact Bool.noConfusion h
      | ok a =>
        dsimp only
        split
        · intro h; exact Bool.noConfusion h
        · rw [if_pos rfl]
          split
          · intro h; exact Bool.noConfusion h
          · intro _
            constructor
            · rw [fsRead_fsWrite_ne _ _ _ _ (backupName_ne inp ts),
                fsRead_fsWrite_self]
            · rfl

/-- Witness for C3: a concrete in-place run over a two-command file succeeds
and its backup file holds exactly the original input lines. -/
theorem C3_backup_safety_witness :
    isOkE (process_file posFS ("pos.sbp") none none none ("20250101_120000") true 60 300).2
      = true
    ∧ fsRead (process_file posFS ("pos.sbp") none none none ("20250101_120000") true 60 300).1
        (backupName ("pos.sbp") ("20250101_120000")) = fsRead posFS ("pos.sbp") :=
  ⟨by decide,
   ((C3_backup_safety posFS ("pos.sbp") ("20250101_120000") none none 60 300).2 (by decide)).1⟩

theorem positioning_heights_nonneg (zs : List ℚ) :
    ∀ p ∈ (analyze_positioning_heights zs).positioning_heights, 0 ≤ p.1 := by
  intro p hp
  unfold analyze_positioning_heights at hp
  dsimp only at hp
  cases hsel : selectBest (positive_heights zs) with
  | none =>
    rw [hsel] at hp
    cases hp
  | some b =>
    rw [hsel] at hp
    have hpb := List.mem_singleton.mp hp
    subst hpb
    exact ((mem_positive_heights zs p).1 (selectBest_mem hsel)).2.2.1

theorem analyze_file_ok_positioning {lines : List Line} {cut jog : ℚ} {a : Analysis}
    (h : analyze_file lines cut jog = .ok a) :
    ∃ zs, a.positioning_heights = (analyze_positioning_heights zs).positioning_heights := by
  unfold analyze_file at h
  cases hscan : scanLines initialScanState lines with
  | error e =>
    rw [hscan] at h
    cases h
  | ok st =>
    rw [hscan] at h
    dsimp only at h
    split at h
    · cases h
    · split at h
      · cases h
      · injection h with h
        exact ⟨st.z_values, by rw [← h]⟩

/-- C1 (amended): with auto-detected heights (no caller-supplied heights and
no legacy retract height), every height `process_file` converts at is
non-negative — the automatic selection can never pick a negative feed height,
so no negative-Z command is reclassified on this path.  (The caller-supplied
path has no such check: see the counterexample.) -/
theorem C1_auto_heights_nonneg (fs : FS) (inp : String) (outp : Option String)
    (ts : String) (bok : Bool) (cut jog : ℚ) (hsList : List ℚ)
    (h : (process_file fs inp outp none none ts bok cut jog).2.map
        (fun r => r.positioning_heights) = .ok hsList) :
    ∀ x ∈ hsList, 0 ≤ x := by
  intro x hx
  unfold process_file at h
  cases hread : fsRead fs inp with
  | none =>
    rw [hread] at h
    cases h
  | some lines =>
    rw [hread] at h
    dsimp only at h
    cases han : analyze_file lines cut jog with
    | error e =>
      rw [han] at h
      cases h
    | ok a =>
      rw [han] at h
      dsimp only at h
      obtain ⟨zs, hzs⟩ := analyze_file_ok_positioning han
      have hnn : ∀ y ∈ a.positioning_heights.map (fun p => p.1), 0 ≤ y := by
        intro y hy
        rcases List.mem_map.mp hy with ⟨p, hp, rfl⟩
        refine positioning_heights_nonneg zs p ?_
        rw [← hzs]
        exact hp
      split at h
      · cases h
      · cases outp with
        | none =>
          dsimp only at h
          cases bok with
          | false =>
            rw [if_neg (by simp)] at h
            cases h
          | true =>
            rw [if_pos rfl] at h
            split at h
            · cases h
            · dsimp only at h
              injection h with h
              subst h
              exact hnn x hx
        | some op =>
          dsimp only at h
          split at h
          · cases h
          · dsimp only at h
            injection h with h
            subst h
            exact hnn x hx

/-- Witness for C1: a concrete auto-detected run (feed height 1.0) whose used
height list is [1], every member non-negative. -/
theorem C1_auto_heights_nonneg_witness :
    (process_file posFS ("pos.sbp") (some ("out.sbp")) none none ("t") true 60 300).2.map
        (fun r => r.positioning_heights) = .ok [1]
    ∧ ∀ x ∈ [(1 : ℚ)], 0 ≤ x :=
  ⟨by decide,
   C1_auto_heights_nonneg posFS ("pos.sbp") (some ("out.sbp")) ("t") true 60 300 [1]
     (by decide)⟩

theorem msMatch_of_m3Match {cs : List Char} {x : List Char × List Char × List Char}
    (h : m3Match cs = some x) : msMatch cs = none := by
  have ht := m3Match_take3 h
  have hshape : cs = 'M' :: '3' :: ',' :: cs.drop 3 := by
    conv_lhs => rw [← List.take_append_drop 3 cs]
    rw [ht]
    rfl
  rw [hshape]
  rfl

theorem jsMatch_of_m3Match {cs : List Char} {x : List Char × List Char × List Char}
    (h : m3Match cs = some x) : jsMatch cs = none := by
  have ht := m3Match_take3 h
  have hshape : cs = 'M' :: '3' :: ',' :: cs.drop 3 := by
    conv_lhs => rw [← List.take_append_drop 3 cs]
    rw [ht]
    rfl
  rw [hshape]
  rfl

theorem msMatch_shape {cs : List Char} {f : List Char} (h : msMatch cs = some f) :
    ∃ t, cs = 'M' :: 'S' :: ',' :: t := by
  unfold msMatch at h
  split at h
  · next t => exact ⟨t, rfl⟩
  · cases h

theorem jsMatch_of_msMatch {cs : List Char} {f : List Char} (h : msMatch cs = some f) :
    jsMatch cs = none := by
  obtain ⟨t, rfl⟩ := msMatch_shape h
  rfl

theorem scanLine_detected {st st' : ScanState} {l : Line} (h : scanLine st l = .ok st') :
    st'.detected_move_speed =
      (match msMatch (stripChars l) with
       | some f => some (floatVal f * 60)
       | none => st.detected_move_speed)
    ∧ st'.detected_jog_speed =
      (match jsMatch (stripChars l) with
       | some f => some (floatVal f * 60)
       | none => st.detected_jog_speed) := by
  unfold scanLine at h
  dsimp only at h
  cases hm3 : m3Match (stripChars l) with
  | some x =>
    obtain ⟨f1, f2, f3⟩ := x
    rw [hm3] at h
    dsimp only at h
    rw [msMatch_of_m3Match hm3, jsMatch_of_m3Match hm3]
    split at h
    · injection h with h
      subst h
      exact ⟨rfl, rfl⟩
    · cases h
  | none =>
    rw [hm3] at h
    dsimp only at h
    cases hms : msMatch (stripChars l) with
    | some f =>
      rw [hms] at h
      dsimp only at h
      rw [jsMatch_of_msMatch hms]
      split at h
      · injection h with h
        subst h
        exact ⟨rfl, rfl⟩
      · cases h
    | none =>
      rw [hms] at h
      dsimp only at h
      cases hjs : jsMatch (stripChars l) with
      | some f =>
        rw [hjs] at h
        dsimp only at h
        split at h
        · injection h with h
          subst h
          exact ⟨rfl, rfl⟩
        · cases h
      | none =>
        rw [hjs] at h
        injection h with h
        subst h
        exact ⟨rfl, rfl⟩

theorem scanLines_detected : ∀ (lines : List Line) (st st' : ScanState),
    scanLines st lines = .ok st' →
    (st'.detected_move_speed =
      (match (declaredMoveSpeeds lines).getLast? with
       | some v => some v
       | none => st.detected_move_speed))
    ∧ (st'.detected_jog_speed =
      (match (declaredJogSpeeds lines).getLast? with
       | some v => some v
       | none => st.detected_jog_speed)) := by
  intro lines
  induction lines with
  | nil =>
    intro st st' h
    injection h with h
    subst h
    exact ⟨rfl, rfl⟩
  | cons l rest ih =>
    intro st st' h
    unfold scanLines at h
    cases hline : scanLine st l with
    | error e =>
      rw [hline] at h
      cases h
    | ok st1 =>
      rw [hline] at h
      obtain ⟨hm1, hj1⟩ := scanLine_detected hline
      obtain ⟨hm2, hj2⟩ := ih st1 st' h
      constructor
      · cases hms : msMatch (stripChars l) with
        | none =>
          have hdm : declaredMoveSpeeds (l :: rest) = declaredMoveSpeeds rest := by
            unfold declaredMoveSpeeds
            rw [List.filterMap_cons, hms]
            rfl
          rw [hdm, hm2, hm1, hms]
        | some f =>
          have hdm : declaredMoveSpeeds (l :: rest)
              = (floatVal f * 60) :: declaredMoveSpeeds rest := by
            unfold declaredMoveSpeeds
            rw [List.filterMap_cons, hms]
            rfl
          rw [hdm, List.getLast?_cons, hm2, hm1, hms]
          cases hlast : (declaredMoveSpeeds rest).getLast? with
          | none => rfl
          | some v => rfl
      · cases hjs : jsMatch (stripChars l) with
        | none =>
          have hdj : declaredJogSpeeds (l :: rest) = declaredJogSpeeds rest := by
            unfold declaredJogSpeeds
            rw [List.filterMap_cons, hjs]
            rfl
          rw [hdj, hj2, hj1, hjs]
        | some f =>
          have hdj : declaredJogSpeeds (l :: rest)
              = (floatVal f * 60) :: declaredJogSpeeds rest := by
            unfold declaredJogSpeeds
            rw [List.filterMap_cons, hjs]
            rfl
          rw [hdj, List.getLast?_cons, hj2, hj1, hjs]
          cases hlast : (declaredJogSpeeds rest).getLast? with
          | none => rfl
          | some v => rfl

theorem analyze_file_ok_speeds {lines : List Line} {cut jog : ℚ} {a : Analysis}
    (h : analyze_file lines cut jog = .ok a) :
    a.detected_move_speed = (declaredMoveSpeeds lines).getLast?
    ∧ a.detected_jog_speed = (declaredJogSpeeds lines).getLast?
    ∧ a.actual_cutting_speed = ((declaredMoveSpeeds lines).getLast?).getD cut
    ∧ a.actual_jog_speed = ((declaredJogSpeeds lines).getLast?).getD jog := by
  unfold analyze_file at h
  cases hscan : scanLines initialScanState lines with
  | error e =>
    rw [hscan] at h
    cases h
  | ok st =>
    rw [hscan] at h
    dsimp only at h
    split at h
    · cases h
    · split at h
      · cases h
      · injection h with h
        subst h
        obtain ⟨hm, hj⟩ := scanLines_detected lines initialScanState st hscan
        have hm' : st.detected_move_speed = (declaredMoveSpeeds lines).getLast? := by
          rw [hm]
          cases (declaredMoveSpeeds lines).getLast? <;> rfl
        have hj' : st.detected_jog_speed = (declaredJogSpeeds lines).getLast? := by
          rw [hj]
          cases (declaredJogSpeeds lines).getLast? <;> rfl
        refine ⟨hm', hj', ?_, ?_⟩
        · show (match st.detected_move_speed with | some v => v | none => cut) = _
          rw [hm']
          cases (declaredMoveSpeeds lines).getLast? <;> rfl
        · show (match st.detected_jog_speed with | some v => v | none => jog) = _
          rw [hj']
          cases (declaredJogSpeeds lines).getLast? <;> rfl

theorem sources_nonempty {coords : List (ℚ × ℚ × ℚ)} {ph : List (ℚ × ℕ)}
    (hn : 2 ≤ (positioningCoordinates coords ph).length) :
    ¬ (ph.isEmpty || coords.isEmpty) = true := by
  intro hor
  rcases Bool.or_eq_true _ _ |>.mp hor with he | he
  · have : ph = [] := List.isEmpty_iff.mp he
    rw [this] at hn
    simp [positioningCoordinates] at hn
  · have : coords = [] := List.isEmpty_iff.mp he
    rw [this] at hn
    simp [positioningCoordinates] at hn

theorem calculate_time_savings_eq (coords : List (ℚ × ℚ × ℚ)) (ph : List (ℚ × ℕ))
    (cut jog : ℚ) (hc : cut ≠ 0) (hj : jog ≠ 0)
    (hn : 2 ≤ (positioningCoordinates coords ph).length) :
    calculate_time_savings coords ph cut jog = .ok
      { positioning_commands := (positioningCoordinates coords ph).length
        avg_move_distance :=
          totalDist ((positioningCoordinates coords ph).map (fun c => (c.1, c.2.1)))
            / (((positioningCoordinates coords ph).length - 1 : ℕ) : ℝ)
        total_move_distance :=
          totalDist ((positioningCoordinates coords ph).map (fun c => (c.1, c.2.1)))
        time_at_cutting_speed :=
          totalDist ((positioningCoordinates coords ph).map (fun c => (c.1, c.2.1))) / (cut : ℝ)
        time_at_jog_speed :=
          totalDist ((positioningCoordinates coords ph).map (fun c => (c.1, c.2.1))) / (jog : ℝ)
        time_saved_minutes :=
          totalDist ((positioningCoordinates coords ph).map (fun c => (c.1, c.2.1))) / (cut : ℝ)
            - totalDist ((positioningCoordinates coords ph).map (fun c => (c.1, c.2.1))) / (jog : ℝ)
        speed_improvement_factor := jog / cut } := by
  unfold calculate_time_savings
  rw [if_neg (sources_nonempty hn)]
  dsimp only
  rw [if_neg (by omega), if_neg hc, if_neg hj, if_pos (by omega)]

/-- C7: each declared rate is used as inches/second × 60; the last declaration
of each kind wins (the detected value is the last element of the declared-rate
list); a detected rate overrides the caller fallback while the fallback
applies when no declaration exists.  The closing conjuncts check this
concretely: `MS, 1.5` yields the effective cutting rate 90.0 whatever the
fallback; two `MS` declarations (1.0 then 2.0) yield 120; a file with no
declarations uses the fallbacks unchanged. -/
theorem C7_speed_rates (lines : List Line) (cut jog : ℚ) (hc : cut ≠ 0) (hj : jog ≠ 0) :
    ((analyze_file lines cut jog).map (fun a =>
        (a.detected_move_speed, a.actual_cutting_speed,
         a.detected_jog_speed, a.actual_jog_speed))
      = (analyze_file lines cut jog).map (fun _ =>
        ((declaredMoveSpeeds lines).getLast?,
         ((declaredMoveSpeeds lines).getLast?).getD cut,
         (declaredJogSpeeds lines).getLast?,
         ((declaredJogSpeeds lines).getLast?).getD jog)))
    ∧ (analyze_file declLines cut jog).map (fun a =>
        (a.detected_move_speed, a.actual_cutting_speed,
         a.detected_jog_speed, a.actual_jog_speed))
      = .ok (some 90, 90, some 150, 150)
    ∧ (analyze_file twoDeclLines cut jog).map (fun a => a.actual_cutting_speed) = .ok 120
    ∧ (analyze_file posLines cut jog).map (fun a =>
        (a.detected_move_speed, a.actual_cutting_speed,
         a.detected_jog_speed, a.actual_jog_speed))
      = .ok (none, cut, none, jog) := by
  refine ⟨?_, rfl, rfl, ?_⟩
  · cases han : analyze_file lines cut jog with
    | error e => rfl
    | ok a =>
      obtain ⟨h1, h2, h3, h4⟩ := analyze_file_ok_speeds han
      simp [Except.map, h1, h2, h3, h4]
  · have hts := calculate_time_savings_eq ([((0 : ℚ), (0 : ℚ), (1 : ℚ)), (3, 4, 1)])
      ([((1 : ℚ), 2)]) cut jog hc hj (by decide)
    unfold analyze_file
    rw [show scanLines initialScanState posLines = .ok
        { z_values := [1, 1], m3_coordinates := [(0, 0, 1), (3, 4, 1)],
          m3_commands := 2, total_lines := 2,
          detected_move_speed := none, detected_jog_speed := none } from by decide]
    dsimp only
    rw [if_neg (by decide)]
    rw [show (analyze_positioning_heights [(1 : ℚ), 1]).positioning_heights
        = [((1 : ℚ), 2)] from by decide]
    rw [hts]
    rfl

/-- Witness for C7: with fallbacks 60/300 and no declarations in the file,
the effective rates are exactly the fallbacks. -/
theorem C7_speed_rates_witness :
    (60 : ℚ) ≠ 0
    ∧ (analyze_file posLines 60 300).map (fun a =>
        (a.detected_move_speed, a.actual_cutting_speed,
         a.detected_jog_speed, a.actual_jog_speed))
      = .ok (none, 60, none, 300) :=
  ⟨by norm_num, (C7_speed_rates posLines 60 300 (by norm_num) (by norm_num)).2.2.2⟩

theorem totalDist_eq_pairwiseDistSum : ∀ P : List (ℚ × ℚ), totalDist P = pairwiseDistSum P := by
  intro P
  induction P with
  | nil => simp [totalDist, pairwiseDistSum]
  | cons p rest ih =>
    cases rest with
    | nil => simp [totalDist, pairwiseDistSum]
    | cons q t =>
      show planarDist p q + totalDist (q :: t) = _
      rw [ih]
      unfold pairwiseDistSum
      simp [List.zip_cons_cons]

theorem totalDist_345 : totalDist [((0 : ℚ), (0 : ℚ)), (3, 4)] = 5 := by
  unfold totalDist planarDist
  rw [show (((3 : ℚ) - 0) ^ 2 + ((4 : ℚ) - 0) ^ 2 : ℚ) = 25 by norm_num]
  rw [show ((25 : ℚ) : ℝ) = (5 : ℝ) ^ 2 by norm_num]
  rw [Real.sqrt_sq (by norm_num : (0 : ℝ) ≤ 5)]
  rw [show totalDist [((3 : ℚ), (4 : ℚ))] = 0 from rfl]
  norm_num

/-- C8: over the positioning commands (cut commands whose height is in the
selected set, in file order): when at least two exist, the total distance is
the sum of planar (X,Y-only) Euclidean distances over consecutive pairs, the
average is total/(count−1), the times are total/rate for each rate, and the
time saved is their difference, unclamped; when at most one exists (count ≤ 1,
including an empty set), the total, average, times and saving are all 0.  The
closing conjuncts check the spec scenario: points (0,0) and (3,4) give
distance 5.0 and, with rates 60/300, time saved 5/60 − 5/300 minutes — and
with the rates swapped the saving is negative, not clamped. -/
theorem C8_distance_time (coords : List (ℚ × ℚ × ℚ)) (ph : List (ℚ × ℕ)) (cut jog : ℚ)
    (hc : cut ≠ 0) (hj : jog ≠ 0) :
    (2 ≤ (positioningCoordinates coords ph).length →
      (calculate_time_savings coords ph cut jog).map (fun t =>
          (t.positioning_commands, t.total_move_distance, t.avg_move_distance,
           t.time_at_cutting_speed, t.time_at_jog_speed, t.time_saved_minutes))
        = .ok ((positioningCoordinates coords ph).length,
            pairwiseDistSum ((positioningCoordinates coords ph).map (fun c => (c.1, c.2.1))),
            pairwiseDistSum ((positioningCoordinates coords ph).map (fun c => (c.1, c.2.1)))
              / (((positioningCoordinates coords ph).length - 1 : ℕ) : ℝ),
            pairwiseDistSum ((positioningCoordinates coords ph).map (fun c => (c.1, c.2.1)))
              / (cut : ℝ),
            pairwiseDistSum ((positioningCoordinates coords ph).map (fun c => (c.1, c.2.1)))
              / (jog : ℝ),
            pairwiseDistSum ((positioningCoordinates coords ph).map (fun c => (c.1, c.2.1)))
              / (cut : ℝ)
              - pairwiseDistSum ((positioningCoordinates coords ph).map (fun c => (c.1, c.2.1)))
                / (jog : ℝ)))
    ∧ ((positioningCoordinates coords ph).length ≤ 1 →
        (calculate_time_savings coords ph cut jog).map (fun t =>
            (t.positioning_commands, t.total_move_distance, t.avg_move_distance,
             t.time_at_cutting_speed, t.time_at_jog_speed, t.time_saved_minutes))
          = .ok ((positioningCoordinates coords ph).length, 0, 0, 0, 0, 0))
    ∧ (calculate_time_savings [((0 : ℚ), (0 : ℚ), (1 : ℚ)), (3, 4, 1)] [((1 : ℚ), 2)] 60 300).map
        (fun t => (t.total_move_distance, t.time_saved_minutes))
      = .ok (5, (5 : ℝ)/60 - 5/300)
    ∧ (calculate_time_savings [((0 : ℚ), (0 : ℚ), (1 : ℚ)), (3, 4, 1)] [((1 : ℚ), 2)] 300 60).map
        (fun t => t.time_saved_minutes) = .ok ((5 : ℝ)/300 - 5/60)
    ∧ ((5 : ℝ)/300 - 5/60) < 0 := by
  refine ⟨?_, ?_, ?_, ?_, by norm_num⟩
  · intro hn
    rw [calculate_time_savings_eq coords ph cut jog hc hj hn]
    dsimp only [Except.map]
    rw [totalDist_eq_pairwiseDistSum]
  · intro hn1
    unfold calculate_time_savings
    by_cases h1 : (ph.isEmpty || coords.isEmpty) = true
    · have hemp : positioningCoordinates coords ph = [] := by
        rcases Bool.or_eq_true _ _ |>.mp h1 with he | he
        · rw [List.isEmpty_iff.mp he]
          simp [positioningCoordinates]
        · rw [List.isEmpty_iff.mp he]
          simp [positioningCoordinates]
      rw [if_pos h1, if_neg hc, hemp]
      rfl
    · rw [if_neg h1]
      dsimp only
      rw [if_pos hn1, if_neg hc]
      rfl
  · have hts := calculate_time_savings_eq ([((0 : ℚ), (0 : ℚ), (1 : ℚ)), (3, 4, 1)])
      ([((1 : ℚ), 2)]) 60 300 (by norm_num) (by norm_num) (by decide)
    rw [show (positioningCoordinates ([((0 : ℚ), (0 : ℚ), (1 : ℚ)), (3, 4, 1)])
        ([((1 : ℚ), 2)])).map (fun c => (c.1, c.2.1)) = [((0 : ℚ), (0 : ℚ)), (3, 4)]
        from by decide] at hts
    rw [totalDist_345] at hts
    rw [hts]
    dsimp only [Except.map]
    norm_num
  · have hts := calculate_time_savings_eq ([((0 : ℚ), (0 : ℚ), (1 : ℚ)), (3, 4, 1)])
      ([((1 : ℚ), 2)]) 300 60 (by norm_num) (by norm_num) (by decide)
    rw [show (positioningCoordinates ([((0 : ℚ), (0 : ℚ), (1 : ℚ)), (3, 4, 1)])
        ([((1 : ℚ), 2)])).map (fun c => (c.1, c.2.1)) = [((0 : ℚ), (0 : ℚ)), (3, 4)]
        from by decide] at hts
    rw [totalDist_345] at hts
    rw [hts]
    dsimp only [Except.map]
    norm_num

/-- Witness for C8: the spec's distance/time scenario instantiated — distance
5.0, time saved 5/60 − 5/300 minutes — together with a degenerate run (a
single positioning command) whose distances and times are all 0. -/
theorem C8_distance_time_witness :
    ((calculate_time_savings [((0 : ℚ), (0 : ℚ), (1 : ℚ)), (3, 4, 1)] [((1 : ℚ), 2)] 60 300).map
        (fun t => (t.total_move_distance, t.time_saved_minutes))
      = .ok (5, (5 : ℝ)/60 - 5/300))
    ∧ ((calculate_time_savings [((0 : ℚ), (0 : ℚ), (1 : ℚ))] [((1 : ℚ), 1)] 60 300).map
        (fun t => (t.positioning_commands, t.total_move_distance, t.avg_move_distance,
                   t.time_at_cutting_speed, t.time_at_jog_speed, t.time_saved_minutes))
      = .ok (1, 0, 0, 0, 0, 0)) :=
  ⟨(C8_distance_time [((0 : ℚ), (0 : ℚ), (1 : ℚ)), (3, 4, 1)] [((1 : ℚ), 2)] 60 300
      (by norm_num) (by norm_num)).2.2.1,
   by
     have h := (C8_distance_time [((0 : ℚ), (0 : ℚ), (1 : ℚ))] [((1 : ℚ), 1)] 60 300
       (by norm_num) (by norm_num)).2.1 (by decide)
     rw [show (positioningCoordinates [((0 : ℚ), (0 : ℚ), (1 : ℚ))] [((1 : ℚ), 1)]).length = 1
       from by decide] at h
     exact h⟩

theorem rewriteLine_ok_of_scanLine {st st1 : ScanState} {l : Line}
    (h : scanLine st l = .ok st1) (H : List ℚ) :
    ∃ out b, rewriteLine H l = .ok (out, b) := by
  unfold rewriteLine
  unfold scanLine at h
  dsimp only at h ⊢
  cases hm : m3Match (stripChars l) with
  | none => exact ⟨l, false, rfl⟩
  | some x =>
    obtain ⟨f1, f2, f3⟩ := x
    rw [hm] at h
    dsimp only at h ⊢
    split at h
    · next hval =>
      have h3 : isValidFloat f3 = true := by
        simp only [Bool.and_eq_true] at hval
        exact hval.2
      rw [if_pos h3]
      by_cases hmem : floatVal f3 ∈ H
      · exact ⟨_, _, by rw [if_pos hmem]⟩
      · exact ⟨_, _, by rw [if_neg hmem]⟩
    · cases h

theorem rewriteLine_flag {H : List ℚ} {l : Line} {out : Line} {b : Bool}
    (h : rewriteLine H l = .ok (out, b)) : b = convertiblePred H l := by
  unfold rewriteLine at h
  unfold convertiblePred
  dsimp only at h
  cases hm : m3Match (stripChars l) with
  | none =>
    rw [hm] at h
    simp only [Except.ok.injEq, Prod.mk.injEq] at h
    exact h.2.symm
  | some x =>
    obtain ⟨f1, f2, f3⟩ := x
    rw [hm] at h
    dsimp only at h
    cases hv : isValidFloat f3 with
    | false =>
      rw [if_neg (by simp [hv])] at h
      cases h
    | true =>
      rw [if_pos hv] at h
      by_cases hmem : floatVal f3 ∈ H
      · rw [if_pos hmem] at h
        simp only [Except.ok.injEq, Prod.mk.injEq] at h
        rw [← h.2]
        simp [hv, hmem]
      · rw [if_neg hmem] at h
        simp only [Except.ok.injEq, Prod.mk.injEq] at h
        rw [← h.2]
        simp [hv, hmem]

theorem rewriteLines_of_scan : ∀ (lines : List Line) (st st' : ScanState) (H : List ℚ),
    scanLines st lines = .ok st' →
    (rewriteLines H lines).2.1 = countConvertibleLines H lines
    ∧ (rewriteLines H lines).2.2 = none := by
  intro lines
  induction lines with
  | nil => intro st st' H h; exact ⟨rfl, rfl⟩
  | cons l rest ih =>
    intro st st' H h
    unfold scanLines at h
    cases hline : scanLine st l with
    | error e =>
      rw [hline] at h
      cases h
    | ok st1 =>
      rw [hline] at h
      obtain ⟨out, b, hrl⟩ := rewriteLine_ok_of_scanLine hline H
      have hflag := rewriteLine_flag hrl
      obtain ⟨ihc, ihe⟩ := ih st1 st' H h
      rcases hrest : rewriteLines H rest with ⟨outs, nrest⟩
      obtain ⟨n, err⟩ := nrest
      rw [hrest] at ihc ihe
      dsimp only at ihc ihe
      subst ihe
      have hcons : rewriteLines H (l :: rest) = (out :: outs, (if b then 1 else 0) + n, none) := by
        unfold rewriteLines
        rw [hrl, hrest]
      rw [hcons]
      constructor
      · show (if b then 1 else 0) + n = countConvertibleLines H (l :: rest)
        unfold countConvertibleLines at ihc ⊢
        rw [List.countP_cons, ← ihc, hflag]
        cases hcp : convertiblePred H l
        all_goals simp [hcp]
        all_goals omega
      · rfl

/-- C10: when the caller supplies explicit positioning heights, the
conversion_stats and time_savings fields of the result are exactly those of
the internal analysis pass (computed from the auto-detected heights), while
modifications_made counts the lines rewritten at the *supplied* heights.  The
closing conjunct exhibits the divergence concretely: on a file whose
auto-detected feed height is 1.0 (2 commands), supplying height 2.0 yields
modifications_made = 1 while the reported stats say 2 positioning commands. -/
theorem C10_stats_vs_modifications (fs : FS) (inp : String) (outp : Option String)
    (H : List ℚ) (lines : List Line) (ts : String) (cut jog : ℚ)
    (hread : fsRead fs inp = some lines) (hH : ¬ H.isEmpty = true) :
    ((process_file fs inp outp (some H) none ts true cut jog).2.map
        (fun r => (r.conversion_stats, r.time_savings, r.modifications_made))
      = (analyze_file lines cut jog).map (fun a =>
          (a.conversion_stats, a.time_savings, countConvertibleLines H lines)))
    ∧ (process_file mixedFS ("mixed.sbp") (some ("out.sbp")) (some [(2 : ℚ)]) none ("t")
        true 60 300).2.map
          (fun r => (r.modifications_made, r.conversion_stats.positioning_commands))
      = .ok (1, 2) := by
  refine ⟨?_, by decide⟩
  unfold process_file
  rw [hread]
  dsimp only
  cases han : analyze_file lines cut jog with
  | error e => rfl
  | ok a =>
    dsimp only
    rw [if_neg hH]
    have hscan : ∃ st, scanLines initialScanState lines = .ok st := by
      unfold analyze_file at han
      cases hs : scanLines initialScanState lines with
      | error e =>
        rw [hs] at han
        cases han
      | ok st => exact ⟨st, rfl⟩
    obtain ⟨st, hst⟩ := hscan
    obtain ⟨hcnt, herr⟩ := rewriteLines_of_scan lines initialScanState st H hst
    rcases hrw : rewriteLines H lines with ⟨outs, nrest⟩
    obtain ⟨n, err⟩ := nrest
    rw [hrw] at hcnt herr
    dsimp only at hcnt herr
    subst herr
    cases outp with
    | none =>
      dsimp only
      rw [if_pos rfl]
      dsimp only [Except.map]
      rw [hcnt]
    | some op =>
      dsimp only [Except.map]
      rw [hcnt]

/-- Witness for C10: the divergent call instantiated — supplied height 2.0 on
the file whose analysis pass auto-detects 1.0. -/
theorem C10_stats_vs_modifications_witness :
    fsRead mixedFS ("mixed.sbp") = some mixedLines
    ∧ ((process_file mixedFS ("mixed.sbp") (some ("out.sbp")) (some [(2 : ℚ)]) none ("t")
        true 60 300).2.map
          (fun r => (r.conversion_stats, r.time_savings, r.modifications_made))
      = (analyze_file mixedLines 60 300).map (fun a =>
          (a.conversion_stats, a.time_savings, countConvertibleLines [(2 : ℚ)] mixedLines))) :=
  ⟨by decide,
   (C10_stats_vs_modifications mixedFS ("mixed.sbp") (some ("out.sbp")) [(2 : ℚ)] mixedLines
     ("t") 60 300 (by decide) (by decide)).1⟩
